import Mathlib

/-!
Shallow embedding of the host shell in `src-tauri/src/lib.rs` of the
`invoices` repository: the sidecar port resolver (`get_sidecar_port`),
the tray-menu event handler, the window close-request interceptor, and
the startup (`setup`) sequence, together with theorems about them.
-/

namespace Invoices

/-- Rust's `char::is_whitespace` on the scalar value: the Unicode
White_Space code points, used by `str::trim`. -/
def wsNat (n : Nat) : Bool :=
  n == 9 || n == 10 || n == 11 || n == 12 || n == 13 || n == 32 ||
  n == 133 || n == 160 || n == 5760 ||
  (decide (8192 ≤ n) && decide (n ≤ 8202)) ||
  n == 8232 || n == 8233 || n == 8239 || n == 8287 || n == 12288

/-- Rust's `char::is_whitespace`. -/
def rustIsWhitespace (c : Char) : Bool :=
  wsNat c.toNat

/-- `str::trim` at the character-list level: drop Unicode whitespace
from both ends. -/
def trimList (l : List Char) : List Char :=
  ((l.dropWhile rustIsWhitespace).reverse.dropWhile rustIsWhitespace).reverse

/-- Rust's `str::trim`: drop Unicode whitespace from both ends. -/
def rustTrim (s : String) : String :=
  ⟨trimList s.data⟩

/-- The value of an ASCII decimal digit character, `none` for any other
character (Rust's per-byte digit check in `from_str_radix` at radix 10). -/
def digitValue (c : Char) : Option Nat :=
  if 48 ≤ c.toNat ∧ c.toNat ≤ 57 then some (c.toNat - 48) else none

/-- The digit loop of Rust's `from_str_radix` for `u16`: accumulate
`acc * 10 + digit` with a checked-overflow test against `u16::MAX`;
any non-digit character or overflow yields `none` (an `Err`). -/
def parseDigits : List Char → Nat → Option Nat
  | [], acc => some acc
  | c :: rest, acc =>
    match digitValue c with
    | some d =>
      if acc * 10 + d ≤ 65535 then parseDigits rest (acc * 10 + d)
      else none
    | none => none

/-- `u16::from_str` at the character-list level: empty input fails; a
leading `'+'` is stripped (a bare `"+"` fails); `'-'` is not accepted
for an unsigned type; the remaining characters must be decimal digits
whose value fits in `u16`. -/
def parseIntRadix10 (cs : List Char) : Option Nat :=
  match cs with
  | [] => none
  | c :: rest =>
    if c = '+' then (if rest = [] then none else parseDigits rest 0)
    else parseDigits (c :: rest) 0

/-- Rust's `str::parse::<u16>()`. -/
def parseU16 (s : String) : Option Nat :=
  parseIntRadix10 s.data

/-- `get_sidecar_port` from `lib.rs`, with the outcome of
`std::fs::read_to_string(port_file)` as input: `some content` when the
read succeeds, `none` when the file is missing or unreadable.
`port_str.trim().parse().unwrap_or(3001)` on success, `3001` otherwise. -/
def get_sidecar_port (readResult : Option String) : Nat :=
  match readResult with
  | some port_str => (parseU16 (rustTrim port_str)).getD 3001
  | none => 3001

/-- The decimal value of a digit string, via the usual left fold. -/
def digitsValFrom (acc : Nat) (ds : List Char) : Nat :=
  ds.foldl (fun a c => a * 10 + (c.toNat - 48)) acc

/-- The decimal value of a digit string. -/
def digitsVal (ds : List Char) : Nat :=
  digitsValFrom 0 ds

/-- A filesystem: a map from paths to file contents (`none` = the path
is missing or unreadable). -/
structure FileSystem where
  files : String → Option String

/-- `std::fs::read_to_string`, threading the filesystem state through
explicitly: returns the content and the (unchanged) filesystem. -/
def read_to_string (path : String) (fs : FileSystem) :
    Option String × FileSystem :=
  (fs.files path, fs)

/-- `std::env::temp_dir().join("invoices-sidecar-port")`. -/
def portFilePath (tempDir : String) : String :=
  tempDir ++ "/invoices-sidecar-port"

/-- `get_sidecar_port` as a state-passing function over the filesystem:
every filesystem operation it performs is made explicit, so purity is a
provable property rather than an assumption. -/
def get_sidecar_port_fs (tempDir : String) (fs : FileSystem) :
    Nat × FileSystem :=
  let r := read_to_string (portFilePath tempDir) fs
  match r.1 with
  | some port_str => ((parseU16 (rustTrim port_str)).getD 3001, r.2)
  | none => (3001, r.2)

/-- The main webview window's observable state: visibility, focus, and
whether the platform has destroyed it. -/
structure MainWindow where
  visible : Bool
  focused : Bool
  destroyed : Bool

/-- The host application's state: the handle returned by
`app.get_webview_window("main")` (`none` when no such window exists) and
the process exit status (`some code` once `app.exit(code)` has run). -/
structure AppState where
  mainWindow : Option MainWindow
  exitCode : Option Nat

/-- The tray menu event handler registered by `on_menu_event` in
`lib.rs`: `"quit"` calls `app.exit(0)`; `"show"` shows and focuses the
main window when its handle is available; any other identifier is
ignored. -/
def on_menu_event (app : AppState) (id : String) : AppState :=
  if id = "quit" then { app with exitCode := some 0 }
  else if id = "show" then
    match app.mainWindow with
    | some window =>
      { app with
        mainWindow := some { window with visible := true, focused := true } }
    | none => app
  else app

/-- The `CloseRequested` handler installed by `on_window_event`:
`api.prevent_close()` then `w.hide()`. Returns the prevent-close flag it
set together with the updated window. -/
def close_handler (w : MainWindow) : Bool × MainWindow :=
  (true, { w with visible := false })

/-- Delivery of a platform close request to the main window: the
installed handler runs first; afterwards the platform destroys the
window only if the handler did not call `prevent_close`. -/
def deliverCloseRequested (app : AppState) : AppState :=
  match app.mainWindow with
  | none => app
  | some w =>
    let r := close_handler w
    let w2 := if r.1 then r.2 else { r.2 with destroyed := true }
    { app with mainWindow := some w2 }

/-- The runtime events this core handles: tray menu events (keyed by the
menu item identifier) and window close requests. -/
inductive CoreEvent where
  | menu (id : String)
  | closeRequested

/-- One step of the event loop: dispatch a single event to the handlers
registered during setup. -/
def step (app : AppState) (e : CoreEvent) : AppState :=
  match e with
  | .menu id => on_menu_event app id
  | .closeRequested => deliverCloseRequested app

/-- The environment facts the `setup` closure encounters: the build kind
(`debug_assertions`), whether `default_window_icon()` and
`get_webview_window("main")` return a value, and whether sidecar
command creation and spawning succeed. -/
structure SetupConfig where
  debugAssertions : Bool
  iconAvailable : Bool
  mainWindowAvailable : Bool
  sidecarCommandOk : Bool
  sidecarSpawnOk : Bool

/-- The panics `setup` can raise: the two `unwrap`s and the two
`expect`s in `lib.rs`. A panic aborts startup with a nonzero process
status. -/
inductive Panic where
  | iconUnwrap
  | windowUnwrap
  | sidecarCommandExpect
  | sidecarSpawnExpect

/-- A completed setup: the initial app state, the installed
close-request interceptor, and whether a sidecar child handle is held. -/
structure SetupOk where
  app : AppState
  closeHandlerInstalled : Bool
  sidecarSpawned : Bool

/-- What running `setup` produced, and how many times
`sidecar_command.spawn()` was attempted along the way. -/
structure SetupOutcome where
  result : Except Panic SetupOk
  spawnAttempts : Nat

/-- The app state right after a successful setup: the platform has
created the main window (visible, not destroyed), and the process has
not exited. -/
def initialApp : AppState :=
  { mainWindow := some { visible := true, focused := false, destroyed := false }
    exitCode := none }

/-- The `setup` closure of `run` in `lib.rs`, in source order: build the
tray (using `default_window_icon().unwrap()`), look up the main window
with `.unwrap()`, install the close-request handler, then — only when
`debug_assertions` is off — create the sidecar command with `.expect`
and spawn it with `.expect`. -/
def setup (cfg : SetupConfig) : SetupOutcome :=
  if !cfg.iconAvailable then
    { result := .error .iconUnwrap, spawnAttempts := 0 }
  else if !cfg.mainWindowAvailable then
    { result := .error .windowUnwrap, spawnAttempts := 0 }
  else if cfg.debugAssertions then
    { result := .ok { app := initialApp, closeHandlerInstalled := true
                      sidecarSpawned := false }
      spawnAttempts := 0 }
  else if !cfg.sidecarCommandOk then
    { result := .error .sidecarCommandExpect, spawnAttempts := 0 }
  else if !cfg.sidecarSpawnOk then
    { result := .error .sidecarSpawnExpect, spawnAttempts := 1 }
  else
    { result := .ok { app := initialApp, closeHandlerInstalled := true
                      sidecarSpawned := true }
      spawnAttempts := 1 }

/-- A state whose main window is currently hidden. -/
def hiddenApp : AppState :=
  { mainWindow := some { visible := false, focused := false, destroyed := false }
    exitCode := none }

/-- A state with no main window handle at all. -/
def noWindowApp : AppState :=
  { mainWindow := none, exitCode := none }

/-- A startup environment in which `get_webview_window("main")` returns
nothing. -/
def noWindowCfg : SetupConfig :=
  { debugAssertions := true, iconAvailable := true
    mainWindowAvailable := false, sidecarCommandOk := true
    sidecarSpawnOk := true }

/-- A development-build startup environment. -/
def devCfg : SetupConfig :=
  { debugAssertions := true, iconAvailable := true
    mainWindowAvailable := true, sidecarCommandOk := true
    sidecarSpawnOk := true }

/-- A production-build startup environment in which the sidecar spawn
fails. -/
def prodSpawnFailCfg : SetupConfig :=
  { debugAssertions := false, iconAvailable := true
    mainWindowAvailable := true, sidecarCommandOk := true
    sidecarSpawnOk := false }

/-- A filesystem holding only the port file. -/
def fsA : FileSystem :=
  ⟨fun p => if p = "/tmp/invoices-sidecar-port" then some "4502" else none⟩

/-- A filesystem that agrees with `fsA` on the port file but differs
everywhere else. -/
def fsB : FileSystem :=
  ⟨fun _ => some "4502"⟩

/-! ### Helper lemmas -/

theorem wsNat_eq_false_of_digit {n : Nat} (h1 : 48 ≤ n) (h2 : n ≤ 57) :
    wsNat n = false := by
  interval_cases n <;> rfl

theorem digit_not_ws {c : Char} (h : (digitValue c).isSome = true) :
    rustIsWhitespace c = false := by
  unfold digitValue at h
  split at h
  · rename_i hr
    exact wsNat_eq_false_of_digit hr.1 hr.2
  · simp at h

theorem dropWhile_append_of_forall (p : Char → Bool) (l1 l2 : List Char)
    (h : ∀ c ∈ l1, p c = true) :
    List.dropWhile p (l1 ++ l2) = List.dropWhile p l2 := by
  induction l1 with
  | nil => simp
  | cons a l ih =>
    have ha : p a = true := h a (List.mem_cons_self a l)
    have ih2 := ih (fun c hc => h c (List.mem_cons_of_mem a hc))
    simp only [List.cons_append, List.dropWhile_cons_of_pos ha, ih2]

theorem dropWhile_cons_false (p : Char → Bool) (d : Char) (l : List Char)
    (hd : p d = false) : List.dropWhile p (d :: l) = d :: l := by
  simp [List.dropWhile, hd]

theorem dropWhile_eq_self_of_forall_neg (p : Char → Bool) (l : List Char)
    (h : ∀ c ∈ l, p c = false) : List.dropWhile p l = l := by
  cases l with
  | nil => rfl
  | cons a m => exact dropWhile_cons_false p a m (h a (List.mem_cons_self a m))

theorem trimList_ws_mid_ws (ws1 ws2 ds : List Char)
    (h1 : ∀ c ∈ ws1, rustIsWhitespace c = true)
    (h2 : ∀ c ∈ ws2, rustIsWhitespace c = true)
    (hne : ds ≠ [])
    (hd : ∀ c ∈ ds, rustIsWhitespace c = false) :
    trimList (ws1 ++ (ds ++ ws2)) = ds := by
  obtain ⟨d, ds2, rfl⟩ := List.exists_cons_of_ne_nil hne
  unfold trimList
  rw [dropWhile_append_of_forall _ _ _ h1]
  rw [List.cons_append]
  rw [dropWhile_cons_false _ _ _ (hd d (List.mem_cons_self d ds2))]
  rw [← List.cons_append, List.reverse_append]
  rw [dropWhile_append_of_forall _ _ _
    (fun c hc => h2 c (List.mem_reverse.mp hc))]
  rw [dropWhile_eq_self_of_forall_neg _ _
    (fun c hc => hd c (List.mem_reverse.mp hc))]
  exact List.reverse_reverse _

theorem digitsValFrom_cons (acc : Nat) (c : Char) (rest : List Char) :
    digitsValFrom acc (c :: rest) =
      digitsValFrom (acc * 10 + (c.toNat - 48)) rest := rfl

theorem digitsValFrom_ge (ds : List Char) :
    ∀ acc : Nat, acc ≤ digitsValFrom acc ds := by
  induction ds with
  | nil => intro acc; exact Nat.le_refl acc
  | cons c rest ih =>
    intro acc
    rw [digitsValFrom_cons]
    calc acc ≤ acc * 10 + (c.toNat - 48) := by omega
      _ ≤ digitsValFrom (acc * 10 + (c.toNat - 48)) rest := ih _

theorem digitValue_eq_some {c : Char} {d : Nat}
    (h : digitValue c = some d) : d = c.toNat - 48 := by
  unfold digitValue at h
  split at h
  · exact (Option.some_inj.mp h).symm
  · cases h

theorem parseDigits_eq_some (ds : List Char) :
    ∀ acc : Nat, (∀ c ∈ ds, (digitValue c).isSome = true) →
      digitsValFrom acc ds ≤ 65535 →
      parseDigits ds acc = some (digitsValFrom acc ds) := by
  induction ds with
  | nil => intro acc _ _; rfl
  | cons c rest ih =>
    intro acc hall hle
    have hc : (digitValue c).isSome = true :=
      hall c (List.mem_cons_self c rest)
    obtain ⟨d, hd⟩ := Option.isSome_iff_exists.mp hc
    have hdv : d = c.toNat - 48 := digitValue_eq_some hd
    subst hdv
    rw [digitsValFrom_cons] at hle ⊢
    have hstep : acc * 10 + (c.toNat - 48) ≤ 65535 :=
      Nat.le_trans (digitsValFrom_ge rest _) hle
    simp only [parseDigits, hd]
    rw [if_pos hstep]
    exact ih _ (fun x hx => hall x (List.mem_cons_of_mem c hx)) hle

theorem parseDigits_le (ds : List Char) :
    ∀ acc v : Nat, acc ≤ 65535 → parseDigits ds acc = some v →
      v ≤ 65535 := by
  induction ds with
  | nil =>
    intro acc v h hp
    unfold parseDigits at hp
    rw [← Option.some_inj.mp hp]
    exact h
  | cons c rest ih =>
    intro acc v h hp
    rcases hdv : digitValue c with _ | d
    · simp only [parseDigits, hdv] at hp
      cases hp
    · simp only [parseDigits, hdv] at hp
      split at hp
      · exact ih _ _ (by assumption) hp
      · cases hp

theorem parseDigits_overflow (ds : List Char) :
    ∀ acc : Nat, (∀ c ∈ ds, (digitValue c).isSome = true) →
      acc ≤ 65535 → 65535 < digitsValFrom acc ds →
      parseDigits ds acc = none := by
  induction ds with
  | nil =>
    intro acc _ hle hgt
    exact absurd hgt (by simpa [digitsValFrom] using Nat.not_lt.mpr hle)
  | cons c rest ih =>
    intro acc hall hle hgt
    have hc : (digitValue c).isSome = true :=
      hall c (List.mem_cons_self c rest)
    obtain ⟨d, hd⟩ := Option.isSome_iff_exists.mp hc
    have hdv : d = c.toNat - 48 := digitValue_eq_some hd
    subst hdv
    rw [digitsValFrom_cons] at hgt
    simp only [parseDigits, hd]
    by_cases hstep : acc * 10 + (c.toNat - 48) ≤ 65535
    · rw [if_pos hstep]
      exact ih _ (fun x hx => hall x (List.mem_cons_of_mem c hx)) hstep hgt
    · rw [if_neg hstep]

theorem digitValue_ne_plus {c : Char}
    (h : (digitValue c).isSome = true) : ¬ c = '+' := by
  intro he
  subst he
  exact absurd h (by decide)

theorem parseIntRadix10_digits (ds : List Char) (hne : ds ≠ [])
    (hall : ∀ c ∈ ds, (digitValue c).isSome = true) :
    parseIntRadix10 ds = parseDigits ds 0 := by
  obtain ⟨d, rest, rfl⟩ := List.exists_cons_of_ne_nil hne
  simp only [parseIntRadix10]
  rw [if_neg (digitValue_ne_plus (hall d (List.mem_cons_self d rest)))]

theorem parseIntRadix10_le (cs : List Char) :
    ∀ v : Nat, parseIntRadix10 cs = some v → v ≤ 65535 := by
  intro v h
  rcases cs with _ | ⟨c, rest⟩
  · cases h
  · simp only [parseIntRadix10] at h
    split at h
    · split at h
      · cases h
      · exact parseDigits_le rest 0 v (by omega) h
    · exact parseDigits_le (c :: rest) 0 v (by omega) h

theorem parseU16_le (s : String) :
    ∀ v : Nat, parseU16 s = some v → v ≤ 65535 := by
  intro v h
  exact parseIntRadix10_le s.data v h

/-! ### Claim theorems -/

/-- C2: for every port-file content that is a well-formed decimal
integer in [0, 65535] (possibly surrounded by whitespace, e.g. a
trailing newline), `get_sidecar_port` returns exactly that integer. -/
theorem C2_port_wellformed (ws1 ws2 ds : List Char) (n : Nat)
    (h1 : ∀ c ∈ ws1, rustIsWhitespace c = true)
    (h2 : ∀ c ∈ ws2, rustIsWhitespace c = true)
    (hne : ds ≠ [])
    (hall : ∀ c ∈ ds, (digitValue c).isSome = true)
    (hval : digitsVal ds = n) (hle : n ≤ 65535) :
    get_sidecar_port (some ⟨ws1 ++ (ds ++ ws2)⟩) = n := by
  subst hval
  have htrim : rustTrim ⟨ws1 ++ (ds ++ ws2)⟩ = ⟨ds⟩ :=
    congrArg String.mk
      (trimList_ws_mid_ws ws1 ws2 ds h1 h2 hne
        (fun c hc => digit_not_ws (hall c hc)))
  simp only [get_sidecar_port, htrim]
  have hp : parseU16 ⟨ds⟩ = some (digitsVal ds) := by
    show parseIntRadix10 ds = some (digitsVal ds)
    rw [parseIntRadix10_digits ds hne hall]
    exact parseDigits_eq_some ds 0 hall hle
  rw [hp, Option.getD_some]

/-- C2 witness: the file content `"4502\n"` yields port 4502. -/
theorem C2_port_wellformed_witness :
    get_sidecar_port (some ⟨[] ++ (['4', '5', '0', '2'] ++ ['\n'])⟩) =
      4502 :=
  C2_port_wellformed [] ['\n'] ['4', '5', '0', '2'] 4502
    (by decide) (by decide) (by decide) (by decide) (by decide) (by decide)

/-- C3: when the port file is missing or unreadable, or its content
fails integer parsing, `get_sidecar_port` returns the fixed default
3001 and never propagates an error. -/
theorem C3_port_default :
    get_sidecar_port none = 3001 ∧
    ∀ s : String, parseU16 (rustTrim s) = none →
      get_sidecar_port (some s) = 3001 := by
  refine ⟨rfl, ?_⟩
  intro s h
  simp only [get_sidecar_port, h, Option.getD_none]

/-- C3 witness: the missing-file case, and the unparsable content
`"not-a-number"`, both yield 3001. -/
theorem C3_port_default_witness :
    get_sidecar_port none = 3001 ∧
    get_sidecar_port (some "not-a-number") = 3001 :=
  ⟨C3_port_default.1, C3_port_default.2 "not-a-number" (by decide)⟩

/-- C7: `get_sidecar_port` is total and never fails observably: for
every state of the port file it returns an integer in [0, 65535]. -/
theorem C7_port_total (readResult : Option String) :
    get_sidecar_port readResult ≤ 65535 := by
  rcases readResult with _ | s
  · decide
  · simp only [get_sidecar_port]
    rcases hp : parseU16 (rustTrim s) with _ | v
    · rw [Option.getD_none]; decide
    · rw [Option.getD_some]
      exact parseU16_le (rustTrim s) v hp

/-- C9: content that parses as an integer outside [0, 65535]
(e.g. `"70000"`, or the negative `"-1"`, which a `u16` parse rejects)
is treated exactly like a parse failure: `get_sidecar_port` returns
3001. -/
theorem C9_port_out_of_range :
    (∀ ws1 ws2 ds : List Char,
      (∀ c ∈ ws1, rustIsWhitespace c = true) →
      (∀ c ∈ ws2, rustIsWhitespace c = true) →
      ds ≠ [] → (∀ c ∈ ds, (digitValue c).isSome = true) →
      65535 < digitsVal ds →
      get_sidecar_port (some ⟨ws1 ++ (ds ++ ws2)⟩) = 3001) ∧
    get_sidecar_port (some "-1") = 3001 := by
  constructor
  · intro ws1 ws2 ds h1 h2 hne hall hgt
    have htrim : rustTrim ⟨ws1 ++ (ds ++ ws2)⟩ = ⟨ds⟩ :=
      congrArg String.mk
        (trimList_ws_mid_ws ws1 ws2 ds h1 h2 hne
          (fun c hc => digit_not_ws (hall c hc)))
    simp only [get_sidecar_port, htrim]
    have hp : parseU16 ⟨ds⟩ = none := by
      show parseIntRadix10 ds = none
      rw [parseIntRadix10_digits ds hne hall]
      exact parseDigits_overflow ds 0 hall (by omega) hgt
    rw [hp, Option.getD_none]
  · decide

/-- C9 witness: the out-of-range content `"70000"` yields 3001. -/
theorem C9_port_out_of_range_witness :
    get_sidecar_port (some ⟨[] ++ (['7', '0', '0', '0', '0'] ++ [])⟩) =
      3001 :=
  C9_port_out_of_range.1 [] [] ['7', '0', '0', '0', '0']
    (by decide) (by decide) (by decide) (by decide) (by decide)

/-- C8: `get_sidecar_port` is a pure read: it never mutates the
filesystem, its result is exactly the pure function of the port file's
content, and any two calls observing the same content agree. -/
theorem C8_port_pure :
    (∀ (td : String) (fs : FileSystem),
      (get_sidecar_port_fs td fs).2 = fs) ∧
    (∀ (td : String) (fs : FileSystem),
      (get_sidecar_port_fs td fs).1 =
        get_sidecar_port (fs.files (portFilePath td))) ∧
    (∀ (td : String) (fs fs2 : FileSystem),
      fs.files (portFilePath td) = fs2.files (portFilePath td) →
      (get_sidecar_port_fs td fs).1 = (get_sidecar_port_fs td fs2).1) := by
  have hread : ∀ (td : String) (fs : FileSystem),
      (get_sidecar_port_fs td fs).1 =
        get_sidecar_port (fs.files (portFilePath td)) := by
    intro td fs
    rcases h : fs.files (portFilePath td) with _ | s <;>
      simp [get_sidecar_port_fs, read_to_string, get_sidecar_port, h]
  refine ⟨?_, hread, ?_⟩
  · intro td fs
    rcases h : fs.files (portFilePath td) with _ | s <;>
      simp [get_sidecar_port_fs, read_to_string, h]
  · intro td fs fs2 heq
    rw [hread td fs, hread td fs2, heq]

/-- C8 witness: two filesystems agreeing on the port file (but nowhere
else) give the same resolved port. -/
theorem C8_port_pure_witness :
    fsA.files (portFilePath "/tmp") = fsB.files (portFilePath "/tmp") ∧
    (get_sidecar_port_fs "/tmp" fsA).1 =
      (get_sidecar_port_fs "/tmp" fsB).1 :=
  ⟨by decide, C8_port_pure.2.2 "/tmp" fsA fsB (by decide)⟩

/-- C1: every close request delivered to the main window is
intercepted: the handler calls `prevent_close` (suppressing the
default close), the window becomes hidden, the process keeps its exit
state, and the window is not destroyed by this path. -/
theorem C1_close_hides (app : AppState) (w : MainWindow)
    (h : app.mainWindow = some w) :
    (close_handler w).1 = true ∧
    deliverCloseRequested app =
      { app with mainWindow := some { w with visible := false } } ∧
    (deliverCloseRequested app).exitCode = app.exitCode ∧
    ∀ w2, (deliverCloseRequested app).mainWindow = some w2 →
      w2.destroyed = w.destroyed := by
  have hd : deliverCloseRequested app =
      { app with mainWindow := some { w with visible := false } } := by
    simp [deliverCloseRequested, h, close_handler]
  refine ⟨rfl, hd, by rw [hd], ?_⟩
  intro w2 hw2
  rw [hd] at hw2
  have he : { w with visible := false } = w2 := Option.some_inj.mp hw2
  rw [← he]

/-- C1 witness: a close request on the freshly set-up app hides the
visible window without exiting or destroying. -/
theorem C1_close_hides_witness :
    (close_handler ⟨true, false, false⟩).1 = true ∧
    deliverCloseRequested initialApp =
      { initialApp with
        mainWindow := some { MainWindow.mk true false false with
                             visible := false } } ∧
    (deliverCloseRequested initialApp).exitCode = initialApp.exitCode ∧
    ∀ w2, (deliverCloseRequested initialApp).mainWindow = some w2 →
      w2.destroyed = (MainWindow.mk true false false).destroyed :=
  C1_close_hides initialApp ⟨true, false, false⟩ rfl

/-- The tray handler leaves the exit state alone on any event other
than the `"quit"` menu item. -/
theorem step_exitCode_of_ne (app : AppState) (e : CoreEvent)
    (h : ¬ e = CoreEvent.menu "quit") :
    (step app e).exitCode = app.exitCode := by
  rcases e with id | _
  · have hq : ¬ id = "quit" := fun hh => h (by rw [hh])
    simp only [step, on_menu_event, if_neg hq]
    by_cases hs : id = "show"
    · rw [if_pos hs]
      rcases hmw : app.mainWindow with _ | w <;> rfl
    · rw [if_neg hs]
  · simp only [step]
    rcases hmw : app.mainWindow with _ | w
    · simp [deliverCloseRequested, hmw]
    · simp [deliverCloseRequested, hmw, close_handler]

/-- C4: dispatching the tray `"quit"` event, from any state, exits the
process with status 0 — and no other event handled by this core sets
exit status 0. -/
theorem C4_quit_exits (app : AppState) (e : CoreEvent)
    (h : app.exitCode = none) :
    (step app e).exitCode = some 0 ↔ e = CoreEvent.menu "quit" := by
  constructor
  · intro hs
    by_contra hne
    rw [step_exitCode_of_ne app e hne, h] at hs
    cases hs
  · intro he
    subst he
    simp [step, on_menu_event]

/-- C4 witness: `"quit"` on the freshly set-up app exits with 0. -/
theorem C4_quit_exits_witness :
    (step initialApp (CoreEvent.menu "quit")).exitCode = some 0 :=
  (C4_quit_exits initialApp (CoreEvent.menu "quit") rfl).mpr rfl

/-- C5: the tray `"show"` event shows and focuses the main window, and
no other event this core handles turns a hidden window visible. -/
theorem C5_show_reveals :
    (∀ (app : AppState) (w : MainWindow), app.mainWindow = some w →
      on_menu_event app "show" =
        { app with
          mainWindow := some { w with visible := true, focused := true } }) ∧
    (∀ (app : AppState) (w w2 : MainWindow) (e : CoreEvent),
      app.mainWindow = some w → w.visible = false →
      (step app e).mainWindow = some w2 → w2.visible = true →
      e = CoreEvent.menu "show") := by
  constructor
  · intro app w h
    simp [on_menu_event, h]
  · intro app w w2 e hw hvis hstep hvis2
    rcases e with id | _
    · by_cases hs : id = "show"
      · rw [hs]
      · exfalso
        by_cases hq : id = "quit"
        · subst hq
          simp only [step, on_menu_event, if_pos rfl] at hstep
          rw [hw] at hstep
          have he : w = w2 := Option.some_inj.mp hstep
          rw [← he, hvis] at hvis2
          cases hvis2
        · simp only [step, on_menu_event, if_neg hq, if_neg hs] at hstep
          rw [hw] at hstep
          have he : w = w2 := Option.some_inj.mp hstep
          rw [← he, hvis] at hvis2
          cases hvis2
    · exfalso
      simp only [step, deliverCloseRequested, hw, close_handler] at hstep
      have he : { w with visible := false } = w2 :=
        Option.some_inj.mp hstep
      rw [← he] at hvis2
      cases hvis2

/-- C5 witness: on a hidden window, `"show"` yields a visible, focused
window, and the reverse transition observed is indeed `"show"`. -/
theorem C5_show_reveals_witness :
    on_menu_event hiddenApp "show" =
      { hiddenApp with
        mainWindow := some { MainWindow.mk false false false with
                             visible := true, focused := true } } ∧
    CoreEvent.menu "show" = CoreEvent.menu "show" :=
  ⟨C5_show_reveals.1 hiddenApp ⟨false, false, false⟩ rfl,
   C5_show_reveals.2 hiddenApp ⟨false, false, false⟩ ⟨true, true, false⟩
     (CoreEvent.menu "show") rfl rfl rfl rfl⟩

/-- C6: in production builds startup attempts the sidecar spawn exactly
once (never more), and a failed spawn aborts startup; in development
builds no spawn occurs at all. -/
theorem C6_sidecar_once (cfg : SetupConfig)
    (hi : cfg.iconAvailable = true) (hw : cfg.mainWindowAvailable = true) :
    (cfg.debugAssertions = true →
      (setup cfg).spawnAttempts = 0 ∧
      (setup cfg).result = Except.ok
        { app := initialApp, closeHandlerInstalled := true
          sidecarSpawned := false }) ∧
    (cfg.debugAssertions = false →
      (setup cfg).spawnAttempts ≤ 1 ∧
      (cfg.sidecarCommandOk = true →
        (setup cfg).spawnAttempts = 1 ∧
        (cfg.sidecarSpawnOk = false →
          (setup cfg).result =
            Except.error Panic.sidecarSpawnExpect))) := by
  constructor
  · intro hd
    refine ⟨?_, ?_⟩ <;> simp [setup, hi, hw, hd]
  · intro hd
    refine ⟨?_, ?_⟩
    · rcases hc : cfg.sidecarCommandOk <;> rcases hs : cfg.sidecarSpawnOk <;>
        simp [setup, hi, hw, hd, hc, hs]
    · intro hc
      refine ⟨?_, ?_⟩
      · rcases hs : cfg.sidecarSpawnOk <;> simp [setup, hi, hw, hd, hc, hs]
      · intro hs
        simp [setup, hi, hw, hd, hc, hs]

/-- C6 witness: a failed production spawn is a single attempt that
aborts startup; a development build makes no attempt. -/
theorem C6_sidecar_once_witness :
    ((setup prodSpawnFailCfg).spawnAttempts = 1 ∧
     (setup prodSpawnFailCfg).result =
       Except.error Panic.sidecarSpawnExpect) ∧
    (setup devCfg).spawnAttempts = 0 := by
  have h1 := C6_sidecar_once prodSpawnFailCfg rfl rfl
  have h2 := C6_sidecar_once devCfg rfl rfl
  exact ⟨⟨((h1.2 rfl).2 rfl).1, ((h1.2 rfl).2 rfl).2 rfl⟩, (h2.1 rfl).1⟩

/-- C10: the `"show"` handler is a silent no-op when no main window
handle is available, whereas at startup a missing main window handle
aborts (the `unwrap` panics). -/
theorem C10_show_no_window :
    (∀ app : AppState, app.mainWindow = none →
      on_menu_event app "show" = app) ∧
    (∀ cfg : SetupConfig, cfg.iconAvailable = true →
      cfg.mainWindowAvailable = false →
      (setup cfg).result = Except.error Panic.windowUnwrap) := by
  constructor
  · intro app h
    simp [on_menu_event, h]
  · intro cfg hi hw
    simp [setup, hi, hw]

/-- C10 witness: `"show"` with no window handle does nothing; setup
with no main window panics on the `unwrap`. -/
theorem C10_show_no_window_witness :
    on_menu_event noWindowApp "show" = noWindowApp ∧
    (setup noWindowCfg).result = Except.error Panic.windowUnwrap :=
  ⟨C10_show_no_window.1 noWindowApp rfl,
   C10_show_no_window.2 noWindowCfg rfl rfl⟩

end Invoices
